import Mathlib

/-!
Verification of the chatlog key-extraction and image-decoding core.

This file gives a shallow embedding, over `List Nat` byte sequences, of:
  * `src/py/dat2img/dat2img.py`   (container decoder, XOR probe, legacy fallback)
  * `src/py/dat2img/converter.py` (`WeChatDatConverter._convert_v4_format`)
  * `src/py/wechat_v4/validator.py` (`DBValidator`, `ImgKeyValidator`)
  * `src/py/wechat_v4/extractor.py` (macOS data-key search and region loop)
  * `src/py/wechat_v4/memory_scanner.py` (`WindowsMemoryAPI.enum_regions` filter)

Cryptographic primitives (AES block decryption, PBKDF2, HMAC-SHA512) are
abstracted as function parameters: the Python code treats them as opaque
byte-to-byte transformations supplied by `pycryptodome`/`hashlib`, and every
property below is about the surrounding control flow and byte bookkeeping,
which hold for any instantiation of the primitives.

Fallible Python code (functions that can raise `ValueError`) is embedded with
`Except DecErr`.  Python byte strings become `List Nat`; file names become
`List Char`; Python's negative-index slice semantics are made explicit where
the source can produce negative indices.
-/

set_option maxRecDepth 40000

namespace Chatlog

/-- Error kinds raised by the decoder functions in `dat2img.py`:
`tooShort` is `ValueError("data too short for v4 dat")` / `("data too short")`,
`blockLen` is `ValueError("data length must be multiple of 16")`,
`unknownFormat` is `ValueError("unknown image type after decryption")` /
`("unknown image type")` / `("Unknown legacy format")`. -/
inductive DecErr where
  | tooShort
  | blockLen
  | unknownFormat
deriving DecidableEq, Repr

instance {e a : Type} [DecidableEq e] [DecidableEq a] : DecidableEq (Except e a) :=
  fun x y =>
    match x, y with
    | .ok u, .ok v =>
      if h : u = v then .isTrue (by rw [h]) else .isFalse (by simp [h])
    | .error u, .error v =>
      if h : u = v then .isTrue (by rw [h]) else .isFalse (by simp [h])
    | .ok _, .error _ => .isFalse (by simp)
    | .error _, .ok _ => .isFalse (by simp)

/-- Little-endian u32 read, `struct.unpack_from('<I', data, off)[0]`.
The callers all guard `len(data)` so that the four bytes exist; `getD _ 0`
is only a total-function artifact. -/
def leU32At (data : List Nat) (off : Nat) : Nat :=
  data.getD off 0 + 256 * data.getD (off + 1) 0 +
    65536 * data.getD (off + 2) 0 + 16777216 * data.getD (off + 3) 0

/-- Python `l[i:]` for a possibly negative `i` (negative indices count from
the end and clamp at 0, as in CPython slice semantics). -/
def pyDropFrom (l : List Nat) (i : Int) : List Nat :=
  if 0 ≤ i then l.drop i.toNat else l.drop (((l.length : Int) + i).toNat)

/-- `class Format` of `dat2img.py` (the `AesKey` field is threaded separately
because `V4_FORMAT2.AesKey` is a mutable global). -/
structure Format where
  header : List Nat
  ext : String
deriving DecidableEq, Repr

def JPG : Format := ⟨[0xFF, 0xD8, 0xFF], "jpg"⟩
def PNG : Format := ⟨[0x89, 0x50, 0x4E, 0x47], "png"⟩
def GIF : Format := ⟨[0x47, 0x49, 0x46, 0x38], "gif"⟩
def TIFF : Format := ⟨[0x49, 0x49, 0x2A, 0x00], "tiff"⟩
def BMP : Format := ⟨[0x42, 0x4D], "bmp"⟩
def WXGF : Format := ⟨[0x77, 0x78, 0x67, 0x66], "wxgf"⟩

def FORMATS : List Format := [JPG, PNG, GIF, TIFF, BMP, WXGF]

/-- `V4_FORMAT1.Header = b"\x07\x08\x56\x31"`. -/
def V4_FORMAT1_HEADER : List Nat := [0x07, 0x08, 0x56, 0x31]

/-- `V4_FORMAT2.Header = b"\x07\x08\x56\x32"`. -/
def V4_FORMAT2_HEADER : List Nat := [0x07, 0x08, 0x56, 0x32]

/-- `V4_FORMAT1.AesKey = b"cfcd208495d565ef"` (sixteen ASCII bytes). -/
def V4_FORMAT1_KEY : List Nat :=
  [0x63, 0x66, 0x63, 0x64, 0x32, 0x30, 0x38, 0x34,
   0x39, 0x35, 0x64, 0x35, 0x36, 0x35, 0x65, 0x66]

/-- ECB loop of `decrypt_aes_ecb`: apply the (abstract) block decryption
`dec` to each successive 16-byte chunk and concatenate,
`for i in range(0, len(data), 16): out[i:i+16] = cipher.decrypt(data[i:i+16])`.
Structural recursion on a byte-count fuel (each step consumes 16 bytes but
only one unit of fuel, so `fuel = data.length` is never exhausted). -/
def ecbDecryptBlocksAux (dec : List Nat → List Nat) : Nat → List Nat → List Nat
  | 0, _ => []
  | _ + 1, [] => []
  | fuel + 1, b :: bs =>
    dec (List.take 16 (b :: bs)) ++ ecbDecryptBlocksAux dec fuel (List.drop 15 bs)

/-- See `ecbDecryptBlocksAux`. -/
def ecbDecryptBlocks (dec : List Nat → List Nat) (data : List Nat) : List Nat :=
  ecbDecryptBlocksAux dec data.length data

/-- PKCS#7 strip of `decrypt_aes_ecb`:
`if out: pad = out[-1]; if 0 < pad <= 16 and all(b == pad for b in out[-pad:]):
return bytes(out[:-pad])`.  Python's `out[-pad:]` / `out[:-pad]` clamp when
`pad > len(out)`, which `List.drop (n - pad)` / `List.take (n - pad)` match. -/
def pkcs7Strip (out : List Nat) : List Nat :=
  match out.getLast? with
  | none => out
  | some pad =>
    if 0 < pad ∧ pad ≤ 16 ∧ (out.drop (out.length - pad)).all (fun b => b == pad)
    then out.take (out.length - pad)
    else out

/-- `decrypt_aes_ecb(data, key)` of `dat2img.py` (also byte-for-byte the body
of `WeChatDatConverter._decrypt_aes_ecb` in `converter.py`), with the
per-block AES decryption abstracted as `dec`.  Raises
`ValueError("data length must be multiple of 16")` when the input length is
not a multiple of 16. -/
def decrypt_aes_ecb (dec : List Nat → List Nat) (data : List Nat) :
    Except DecErr (List Nat) :=
  if data.length % 16 ≠ 0 then .error .blockLen
  else .ok (pkcs7Strip (ecbDecryptBlocks dec data))

/-- The AES-zone length computed by `dat2image_v4` (and by
`_convert_v4_format`): `aes_len0 = (aes_len // 16) * 16 + 16` then
`aes_len0 = min(aes_len0, len(payload))`. -/
def aesZoneLen (aes_len payloadLen : Nat) : Nat :=
  min (aes_len / 16 * 16 + 16) payloadLen

/-- `dat2image_v4(data, aes_key)` of `dat2img.py`.
`wx` abstracts `wxgf.wxam2pic` (the animated-image sub-decoder, an external
collaborator per the spec), `aesDec key` abstracts
`AES.new(key, AES.MODE_ECB).decrypt` on a single block, `xorKey` is the
module global `v4_xor_key`. -/
def dat2image_v4 (wx : List Nat → Except DecErr (List Nat × String))
    (aesDec : List Nat → List Nat → List Nat) (xorKey : Nat)
    (aes_key data : List Nat) : Except DecErr (List Nat × String) :=
  if data.length < 15 then .error .tooShort
  else
    let aes_len := leU32At data 6
    let xor_len := leU32At data 10
    let payload := data.drop 15
    let aes_len0 := aesZoneLen aes_len payload.length
    match decrypt_aes_ecb (aesDec aes_key) (payload.take aes_len0) with
    | .error e => .error e
    | .ok dec =>
      let mid_end : Int := (payload.length : Int) - (xor_len : Int)
      let part1 := dec.take aes_len
      let part2 :=
        if (aes_len0 : Int) < mid_end then (payload.take mid_end.toNat).drop aes_len0
        else []
      let part3 :=
        if 0 < xor_len ∧ mid_end < (payload.length : Int) then
          (pyDropFrom payload mid_end).map (fun b => b ^^^ xorKey)
        else []
      let result := part1 ++ part2 ++ part3
      if WXGF.header.isPrefixOf result then wx result
      else
        match FORMATS.find? (fun f => f.header.isPrefixOf result) with
        | some f => .ok (result, f.ext)
        | none => .error .unknownFormat

/-- The legacy-XOR loop at the end of `dat2image`: for each candidate header
`h`, compute `x = data[0] ^ h[0]`, check
`all((data[i] ^ h[i]) == x for i in range(len(h)))`, and on a match XOR the
whole file and look the result up in `FORMATS`; on no match (of the header
relation, or of the decoded bytes) fall through to the next header.
`data.getD i 0` stands for `data[i]`; every caller has `4 ≤ data.length` and
every header has length `≤ 4`, so the default is never consulted. -/
def legacyDecodeList (data : List Nat) :
    List (List Nat) → Except DecErr (List Nat × String)
  | [] => .error .unknownFormat
  | h :: hs =>
    let x := data.getD 0 0 ^^^ h.getD 0 0
    if (List.range h.length).all
        (fun i => data.getD i 0 ^^^ h.getD i 0 == x) then
      let out := data.map (fun b => b ^^^ x)
      match FORMATS.find? (fun f => f.header.isPrefixOf out) with
      | some f => .ok (out, f.ext)
      | none => legacyDecodeList data hs
    else legacyDecodeList data hs

/-- `dat2image(data)` of `dat2img.py`: dispatch on the V4 magics (Format-1
uses the fixed key, Format-2 the mutable global key `fmt2Key`), otherwise the
legacy XOR fallback over `[JPG, PNG, GIF, TIFF, BMP]` headers. -/
def dat2image (wx : List Nat → Except DecErr (List Nat × String))
    (aesDec : List Nat → List Nat → List Nat) (xorKey : Nat)
    (fmt2Key data : List Nat) : Except DecErr (List Nat × String) :=
  if data.length < 4 then .error .tooShort
  else if V4_FORMAT1_HEADER.isPrefixOf data then
    dat2image_v4 wx aesDec xorKey V4_FORMAT1_KEY data
  else if V4_FORMAT2_HEADER.isPrefixOf data then
    dat2image_v4 wx aesDec xorKey fmt2Key data
  else
    legacyDecodeList data [JPG.header, PNG.header, GIF.header, TIFF.header, BMP.header]

/-- `WeChatDatConverter._convert_v4_format(data, aes_key)` of `converter.py`.
Identical to `dat2image_v4` except that the AES zone is decrypted only under
`if aes_len > 0 and aes_key:` (otherwise `aes_data = b""`); `wx` abstracts
`self._convert_wxgf`, `xorKey` is `self.xor_key`. -/
def convert_v4_format (wx : List Nat → Except DecErr (List Nat × String))
    (aesDec : List Nat → List Nat → List Nat) (xorKey : Nat)
    (aes_key data : List Nat) : Except DecErr (List Nat × String) :=
  if data.length < 15 then .error .tooShort
  else
    let aes_len := leU32At data 6
    let xor_len := leU32At data 10
    let payload := data.drop 15
    let aes_len0 := aesZoneLen aes_len payload.length
    let aesDataE : Except DecErr (List Nat) :=
      if 0 < aes_len ∧ aes_key ≠ [] then
        match decrypt_aes_ecb (aesDec aes_key) (payload.take aes_len0) with
        | .error e => .error e
        | .ok dec => .ok (dec.take aes_len)
      else .ok []
    match aesDataE with
    | .error e => .error e
    | .ok part1 =>
      let mid_end : Int := (payload.length : Int) - (xor_len : Int)
      let part2 :=
        if (aes_len0 : Int) < mid_end then (payload.take mid_end.toNat).drop aes_len0
        else []
      let part3 :=
        if 0 < xor_len ∧ mid_end < (payload.length : Int) then
          (pyDropFrom payload mid_end).map (fun b => b ^^^ xorKey)
        else []
      let result := part1 ++ part2 ++ part3
      if WXGF.header.isPrefixOf result then wx result
      else
        match FORMATS.find? (fun f => f.header.isPrefixOf result) with
        | some f => .ok (result, f.ext)
        | none => .error .unknownFormat

/-- A trivial `wxgf` sub-decoder instantiation (always fails); used to state
theorems about the non-`wxgf` outcomes of the container decoders. -/
def wxFail : List Nat → Except DecErr (List Nat × String) :=
  fun _ => .error .unknownFormat

/-! ## `scan_and_set_xor_key` of `dat2img.py` (XorKeyProbe)

`os.walk` plus the unreadable-file `except` clause are abstracted as the
input list of `(file name, file bytes)` pairs, in walk order.  File names are
`List Char`; Python's `name.endswith(s)` is `List.isSuffixOf`. -/

/-- The per-file body of the `scan_and_set_xor_key` loop; `none` models each
`continue`, `some k` models `v4_xor_key = keys[0]; return v4_xor_key`. -/
def scanFileXorKey (name : List Char) (data : List Nat) : Option Nat :=
  if ¬ ("_t.dat".toList.isSuffixOf name) then none
  else if data.length < 6 ∨
      (¬ V4_FORMAT1_HEADER.isPrefixOf data ∧ ¬ V4_FORMAT2_HEADER.isPrefixOf data) then none
  else if data.length < 17 then none
  else
    let xor_len := leU32At data 10
    let tail := data.drop 15
    if xor_len = 0 ∨ tail.length < xor_len then none
    else
      let xor_data := tail.drop (tail.length - xor_len)
      if 2 ≤ xor_data.length then
        let k0 := xor_data.getD (xor_data.length - 2) 0 ^^^ 0xFF
        let k1 := xor_data.getD (xor_data.length - 1) 0 ^^^ 0xD9
        if k0 = k1 then some k0 else none
      else none

/-- `scan_and_set_xor_key(dir_path)`: first confirmed key wins, otherwise the
current value of the global `v4_xor_key` (initialised to `0x37`) is returned. -/
def scan_and_set_xor_key (cur : Nat) : List (List Char × List Nat) → Nat
  | [] => cur
  | (n, d) :: rest =>
    match scanFileXorKey n d with
    | some k => k
    | none => scan_and_set_xor_key cur rest

/-! ## `validator.py` -/

/-- `KEY_SIZE = 32`. -/
def KEY_SIZE : Nat := 32

/-- `SALT_SIZE = 16`. -/
def SALT_SIZE : Nat := 16

/-- `PAGE_SIZE = 4096`. -/
def PAGE_SIZE : Nat := 4096

/-- `IV_SIZE = 16`. -/
def IV_SIZE : Nat := 16

/-- `HMAC_SHA512_SIZE = 64`. -/
def HMAC_SHA512_SIZE : Nat := 64

/-- `RESERVE = IV_SIZE + HMAC_SHA512_SIZE`. -/
def RESERVE : Nat := IV_SIZE + HMAC_SHA512_SIZE

/-- `V4_ITER_COUNT = 256000`. -/
def V4_ITER_COUNT : Nat := 256000

/-- `_xor_bytes(b, x)`. -/
def xorBytes (b : List Nat) (x : Nat) : List Nat := b.map (fun v => v ^^^ x)

/-- `struct.pack('<I', n)` for `n < 2^32`. -/
def packLEU32 (n : Nat) : List Nat :=
  [n % 256, n / 256 % 256, n / 65536 % 256, n / 16777216 % 256]

/-- `DBValidator._derive_keys(db_key, salt)`; `pbkdf2 password salt iter dkLen`
abstracts `hashlib.pbkdf2_hmac('sha512', ...)`. -/
def derive_keys (pbkdf2 : List Nat → List Nat → Nat → Nat → List Nat)
    (db_key salt : List Nat) : List Nat × List Nat :=
  let enc_key := pbkdf2 db_key salt V4_ITER_COUNT KEY_SIZE
  let mac_salt := xorBytes salt 0x3a
  let mac_key := pbkdf2 enc_key mac_salt 2 KEY_SIZE
  (enc_key, mac_key)

/-- `DBValidator.validate_db_key(key_bytes)`; `first_page` is the page read at
construction (its first `SALT_SIZE` bytes are `self.salt`), and
`hmacSha512 key msg` abstracts `hmac.new(key, msg, hashlib.sha512).digest()`
(`hmac.compare_digest` is equality). -/
def validate_db_key (pbkdf2 : List Nat → List Nat → Nat → Nat → List Nat)
    (hmacSha512 : List Nat → List Nat → List Nat)
    (first_page key_bytes : List Nat) : Bool :=
  if key_bytes.length ≠ KEY_SIZE then false
  else
    let salt := first_page.take SALT_SIZE
    let mac_key := (derive_keys pbkdf2 key_bytes salt).2
    let data_end := PAGE_SIZE - RESERVE + IV_SIZE
    let calculated :=
      hmacSha512 mac_key (((first_page.take data_end).drop SALT_SIZE) ++ packLEU32 1)
    let stored := (first_page.drop data_end).take HMAC_SHA512_SIZE
    calculated == stored

/-- `JPG_HEADER = b"\xFF\xD8\xFF"` (validator.py). -/
def JPG_HEADER : List Nat := [0xFF, 0xD8, 0xFF]

/-- `WXGF_HEADER = b"wxgf"` (validator.py). -/
def WXGF_HEADER : List Nat := [0x77, 0x78, 0x67, 0x66]

/-- `ImgKeyValidator.__init__`: walk the data directory (abstracted as the
list of `(name, bytes)` pairs in walk order; `f.read(15 + AES_BLOCK_SIZE)`
reads at most the first 31 bytes), pick the first `.dat` (not `_t.dat`) file
whose read is at least 31 bytes and starts with the Format-2 magic, and store
`data[15:15+16]` as `self.encrypted_block`; `none` if no file qualifies. -/
def imgValidatorBlock : List (List Char × List Nat) → Option (List Nat)
  | [] => none
  | (name, bytes) :: rest =>
    if ¬ (".dat".toList.isSuffixOf name) ∨ "_t.dat".toList.isSuffixOf name then
      imgValidatorBlock rest
    else
      let data := bytes.take 31
      if 31 ≤ data.length ∧ data.take 4 = V4_FORMAT2_HEADER then
        some ((data.drop 15).take 16)
      else imgValidatorBlock rest

/-- `ImgKeyValidator.validate_img_key(key_bytes)`; `aesDec key block`
abstracts `AES.new(key, AES.MODE_ECB).decrypt(block)` (which cannot raise for
a 16-byte key and a 16-byte block, so the `except` branch is dead). -/
def validate_img_key (aesDec : List Nat → List Nat → List Nat)
    (encrypted_block : Option (List Nat)) (key_bytes : List Nat) : Bool :=
  match encrypted_block with
  | none => false
  | some blk =>
    if key_bytes.length < 16 then false
    else
      let decrypted := aesDec (key_bytes.take 16) blk
      JPG_HEADER.isPrefixOf decrypted || WXGF_HEADER.isPrefixOf decrypted

/-! ## `extractor.py`: macOS data-key search and the region loop

Candidate keys are deduplicated in the source by their hex encoding
(`binascii.hexlify(key_bytes).decode()`); hex encoding is injective on byte
strings, so the embedding deduplicates by the 32-byte lists themselves.
Alongside the search result and the updated `processed` set, each function
also returns the trace of candidates submitted to the validation oracle
(`db_validator.validate_db_key`), in submission order, which is what the
dedup claims quantify over. -/

/-- `_V4_DATA_PATTERNS` pattern bytes `b"\x20fts5(%\x00"`. -/
def V4_DATA_PATTERN : List Nat := [0x20, 0x66, 0x74, 0x73, 0x35, 0x28, 0x25, 0x00]

/-- `_V4_DATA_PATTERNS` offsets `[16, -80, 64]`. -/
def V4_DATA_OFFSETS : List Int := [16, -80, 64]

/-- Python `memory.rfind(pat, 0, endI)`: the largest `p` with
`p + len(pat) ≤ end` and `memory[p:p+len(pat)] == pat`, else `-1`; a negative
`endI` counts from the end of `memory` and clamps at 0. -/
def rfindAux (mem pat : List Nat) : Nat → Int
  | 0 => -1
  | p + 1 =>
    if (mem.drop p).take pat.length = pat then (p : Int) else rfindAux mem pat p

/-- See `rfindAux`; `pyRfind mem pat endI = memory.rfind(pat, 0, endI)`. -/
def pyRfind (mem pat : List Nat) (endI : Int) : Int :=
  let e : Nat := if endI < 0 then ((mem.length : Int) + endI).toNat
                 else min endI.toNat mem.length
  if pat.length ≤ e then rfindAux mem pat (e - pat.length + 1) else -1

/-- The `for off in offsets:` body of `_search_data_key_block_mac`, at a
pattern hit `index`: bounds check, 32-byte read, dedup against
`processed_hex`, then validation; returns the found key (if any), the updated
`processed` set, and the candidates submitted to the oracle. -/
def tryOffsets (validate : List Nat → Bool) (memory : List Nat) (index : Nat) :
    List Int → List (List Nat) →
    Option (List Nat) × List (List Nat) × List (List Nat)
  | [], processed => (none, processed, [])
  | off :: offs, processed =>
    let keyOff : Int := (index : Int) + off
    if keyOff < 0 ∨ (memory.length : Int) < keyOff + 32 then
      tryOffsets validate memory index offs processed
    else
      let key := (memory.drop keyOff.toNat).take 32
      if key ∈ processed then tryOffsets validate memory index offs processed
      else
        if validate key then (some key, key :: processed, [key])
        else
          let r := tryOffsets validate memory index offs (key :: processed)
          (r.1, r.2.1, key :: r.2.2)

/-- The `while True:` loop of `_search_data_key_block_mac`:
`index = memory.rfind(pattern, 0, index)`, stop on `-1`, try the offsets,
then `index -= 1`.  `fuel` bounds the iteration count; Python's loop can
fail to terminate (a hit at position 0 with `len(memory) > len(pattern)`
makes `index` wrap to `-1`, which `rfind` reinterprets from the end), and on
terminating runs any `fuel > len(memory)` is enough, so theorems quantify
over `fuel`. -/
def searchLoop (validate : List Nat → Bool) (memory : List Nat) :
    Nat → Int → List (List Nat) →
    Option (List Nat) × List (List Nat) × List (List Nat)
  | 0, _, processed => (none, processed, [])
  | fuel + 1, endI, processed =>
    let i := pyRfind memory V4_DATA_PATTERN endI
    if i < 0 then (none, processed, [])
    else
      match tryOffsets validate memory i.toNat V4_DATA_OFFSETS processed with
      | (some k, p, s) => (some k, p, s)
      | (none, p, s) =>
        let r := searchLoop validate memory fuel (i - 1) p
        (r.1, r.2.1, s ++ r.2.2)

/-- `_search_data_key_block_mac(memory, db_validator, processed_hex)`;
`dbValidator = none` models `db_validator` being `None` (`return None`
immediately, nothing submitted). -/
def search_data_key_block_mac (dbValidator : Option (List Nat → Bool))
    (fuel : Nat) (memory : List Nat) (processed : List (List Nat)) :
    Option (List Nat) × List (List Nat) × List (List Nat) :=
  match dbValidator with
  | none => (none, processed, [])
  | some validate => searchLoop validate memory fuel (memory.length : Int) processed

/-- The data-key part of the Darwin branch of `extract_keys`: for each region
block (read failures and empty blocks are `if not block: continue`), a fresh
`processed_data: Set[str] = set()` is created and, while `data_hex` is still
unknown, `_search_data_key_block_mac` is run on the block; once a key is
found the data-key search is not run again.  Returns the found key and the
concatenated submission trace of the whole extraction. -/
def extractDataKeyLoop (dbValidator : Option (List Nat → Bool)) (fuel : Nat) :
    List (List Nat) → Option (List Nat) × List (List Nat)
  | [] => (none, [])
  | block :: rest =>
    if block = [] then extractDataKeyLoop dbValidator fuel rest
    else
      let r := search_data_key_block_mac dbValidator fuel block []
      match r.1 with
      | some k => (some k, r.2.2)
      | none =>
        let r' := extractDataKeyLoop dbValidator fuel rest
        (r'.1, r.2.2 ++ r'.2)

/-! ## `memory_scanner.py`: `WindowsMemoryAPI.enum_regions` -/

/-- `MEM_COMMIT = 0x1000`. -/
def MEM_COMMIT : Nat := 0x1000

/-- `MEM_PRIVATE = 0x20000`. -/
def MEM_PRIVATE : Nat := 0x20000

/-- `PAGE_READWRITE = 0x04`. -/
def PAGE_READWRITE : Nat := 0x04

/-- One MiB. -/
def MIB : Nat := 1024 * 1024

/-- `max_chunk_size = 64 * 1024 * 1024`. -/
def MAX_CHUNK_SIZE : Nat := 64 * 1024 * 1024

/-- A `MEMORY_BASIC_INFORMATION` record as consulted by `enum_regions`. -/
structure MBI where
  base : Nat
  size : Nat
  state : Nat
  protect : Nat
  mtype : Nat
deriving DecidableEq, Repr

/-- The filter applied by `enum_regions` before yielding anything from a
region: `region_size >= 1MB and region_size <= 512MB and State == MEM_COMMIT
and (Protect & PAGE_READWRITE) and Type == MEM_PRIVATE`. -/
def regionAdmissible (m : MBI) : Prop :=
  MIB ≤ m.size ∧ m.size ≤ 512 * MIB ∧ m.state = MEM_COMMIT ∧
    m.protect &&& PAGE_READWRITE ≠ 0 ∧ m.mtype = MEM_PRIVATE

instance (m : MBI) : Decidable (regionAdmissible m) := by
  unfold regionAdmissible; infer_instance

/-- What `WindowsMemoryAPI.enum_regions` yields for one queried region:
nothing if the filter rejects it; the region itself if `size <= 64MB`;
otherwise `for chunk_start in range(0, min(region_size, 3 * max_chunk_size),
max_chunk_size): yield (base + chunk_start, min(max_chunk_size, region_size -
chunk_start), protect)`. -/
def regionChunks (m : MBI) : List (Nat × Nat × Nat) :=
  if regionAdmissible m then
    if m.size ≤ MAX_CHUNK_SIZE then [(m.base, m.size, m.protect)]
    else
      (List.range ((min m.size (3 * MAX_CHUNK_SIZE) + MAX_CHUNK_SIZE - 1) / MAX_CHUNK_SIZE)).map
        (fun i => (m.base + i * MAX_CHUNK_SIZE,
                   min MAX_CHUNK_SIZE (m.size - i * MAX_CHUNK_SIZE), m.protect))
  else []

/-- `enum_regions`, with the `VirtualQueryEx` address walk from `0x10000`
abstracted as the (base-ascending) list of queried regions: the generator
yields, per queried region, exactly `regionChunks`. -/
def enum_regions (walk : List MBI) : List (Nat × Nat × Nat) :=
  walk.flatMap regionChunks

/-! ## Theorems -/

/-- C1: for a `DBValidator` built from a 4096-byte first page (whose first 16
bytes are the salt), `validate_db_key K` is `true` iff
`HMAC-SHA512(mac_key, first_page[16..4032] || LE32(1))` equals
`first_page[4032..4096]`, where `mac_key` is derived by
`enc_key = PBKDF2-HMAC-SHA512(K, salt, 256000, 32)` followed by
`mac_key = PBKDF2-HMAC-SHA512(enc_key, salt XOR 0x3A, 2, 32)`; and for every
`K` whose length is not 32 bytes it returns `false` (no exception is
modelled: the embedding is total). -/
theorem C1_db_key_oracle (pbkdf2 : List Nat → List Nat → Nat → Nat → List Nat)
    (hmacSha512 : List Nat → List Nat → List Nat) (first_page key : List Nat)
    (_hfp : first_page.length = PAGE_SIZE) :
    (key.length ≠ 32 → validate_db_key pbkdf2 hmacSha512 first_page key = false) ∧
    (validate_db_key pbkdf2 hmacSha512 first_page key = true ↔
      key.length = 32 ∧
      hmacSha512
        (pbkdf2 (pbkdf2 key (first_page.take 16) 256000 32)
          (xorBytes (first_page.take 16) 0x3a) 2 32)
        (((first_page.take 4032).drop 16) ++ [1, 0, 0, 0]) =
        (first_page.drop 4032).take 64) := by
  constructor
  · intro hk
    simp [validate_db_key, KEY_SIZE, hk]
  · by_cases hk : key.length = 32
    · simp [validate_db_key, derive_keys, packLEU32, KEY_SIZE, SALT_SIZE,
        PAGE_SIZE, RESERVE, IV_SIZE, HMAC_SHA512_SIZE, V4_ITER_COUNT, hk]
    · simp [validate_db_key, KEY_SIZE, hk]

/-- Witness for C1 at a concrete instantiation. -/
theorem C1_db_key_oracle_witness :
    validate_db_key (fun _ _ _ _ => List.replicate 32 0) (fun _ _ => List.replicate 64 0)
      (List.replicate 4096 0) (List.replicate 32 0) = true := by
  have h := C1_db_key_oracle (fun _ _ _ _ => List.replicate 32 0)
    (fun _ _ => List.replicate 64 0) (List.replicate 4096 0) (List.replicate 32 0)
    (by rw [List.length_replicate]; rfl)
  refine h.2.mpr ⟨by rw [List.length_replicate], ?_⟩
  show List.replicate 64 0 = ((List.replicate 4096 0).drop 4032).take 64
  rw [List.drop_replicate, List.take_replicate]
  norm_num

/-- C7: for every candidate of length at least 16, the image-key oracle
accepts iff AES-ECB decryption of the stored 16-byte ciphertext block with
the first 16 key bytes starts with `FF D8 FF` or with `wxgf`; and if
construction found no suitable sample file (`imgValidatorBlock = none`), the
oracle rejects every candidate. -/
theorem C7_img_key_oracle (aesDec : List Nat → List Nat → List Nat)
    (files : List (List Char × List Nat)) (key : List Nat) :
    (imgValidatorBlock files = none →
      validate_img_key aesDec (imgValidatorBlock files) key = false) ∧
    (16 ≤ key.length →
      (validate_img_key aesDec (imgValidatorBlock files) key = true ↔
        ∃ blk, imgValidatorBlock files = some blk ∧
          (JPG_HEADER.isPrefixOf (aesDec (key.take 16) blk) = true ∨
           WXGF_HEADER.isPrefixOf (aesDec (key.take 16) blk) = true))) := by
  constructor
  · intro hnone
    simp [validate_img_key, hnone]
  · intro hlen
    cases hblk : imgValidatorBlock files with
    | none => simp [validate_img_key]
    | some blk =>
      have : ¬ key.length < 16 := by omega
      simp [validate_img_key, this]

/-- Witness for C7 at a concrete instantiation. -/
theorem C7_img_key_oracle_witness :
    validate_img_key (fun _ b => b)
      (imgValidatorBlock
        [("img.dat".toList,
          [7, 8, 0x56, 0x32] ++ List.replicate 11 0 ++ [0xFF, 0xD8, 0xFF] ++
            List.replicate 13 2)])
      (List.replicate 16 5) = true := by
  have h := C7_img_key_oracle (fun _ b => b)
    [("img.dat".toList,
      [7, 8, 0x56, 0x32] ++ List.replicate 11 0 ++ [0xFF, 0xD8, 0xFF] ++
        List.replicate 13 2)]
    (List.replicate 16 5)
  exact (h.2 (by simp)).mpr
    ⟨[0xFF, 0xD8, 0xFF] ++ List.replicate 13 2, by decide, by decide⟩

/-- C8: the per-file probe accepts exactly the thumbnail files (name ending
`_t.dat`, Format-1 or Format-2 magic, nonzero `xor_len` at most the payload
length, XOR zone of length at least 2) whose last two bytes XOR-decode to the
JPEG end marker with one and the same key byte `k = tail[-2] XOR 0xFF =
tail[-1] XOR 0xD9`; the directory scan returns the `k` of the first such
file, and the initial global default `0x37` when no scanned file confirms a
key. -/
theorem C8_xor_probe :
    (∀ (name : List Char) (data : List Nat) (k : Nat),
      scanFileXorKey name data = some k ↔
        ("_t.dat".toList.isSuffixOf name = true ∧
         (V4_FORMAT1_HEADER.isPrefixOf data = true ∨
          V4_FORMAT2_HEADER.isPrefixOf data = true) ∧
         17 ≤ data.length ∧
         leU32At data 10 ≠ 0 ∧ leU32At data 10 ≤ data.length - 15 ∧
         2 ≤ leU32At data 10 ∧
         k = data.getD (data.length - 2) 0 ^^^ 0xFF ∧
         k = data.getD (data.length - 1) 0 ^^^ 0xD9)) ∧
    (∀ (cur : Nat) (pre post : List (List Char × List Nat))
       (f : List Char × List Nat) (k : Nat),
      (∀ g ∈ pre, scanFileXorKey g.1 g.2 = none) →
      scanFileXorKey f.1 f.2 = some k →
      scan_and_set_xor_key cur (pre ++ f :: post) = k) ∧
    (∀ files : List (List Char × List Nat),
      (∀ g ∈ files, scanFileXorKey g.1 g.2 = none) →
      scan_and_set_xor_key 0x37 files = 0x37) := by
  refine ⟨?_, ?_, ?_⟩
  · intro name data k
    simp only [scanFileXorKey]
    by_cases h1 : ("_t.dat".toList.isSuffixOf name) = true
    case neg =>
      rw [if_pos (by simpa using h1)]
      simp only [reduceCtorEq, false_iff]
      rintro ⟨hs, -⟩
      exact h1 hs
    rw [if_neg (by simpa using h1)]
    by_cases h2 : data.length < 6 ∨
        (¬ V4_FORMAT1_HEADER.isPrefixOf data ∧ ¬ V4_FORMAT2_HEADER.isPrefixOf data)
    case pos =>
      rw [if_pos h2]
      simp only [reduceCtorEq, false_iff]
      rintro ⟨-, hm, hlen, -⟩
      rcases h2 with h2 | h2
      · omega
      · rcases hm with hm | hm
        · exact h2.1 hm
        · exact h2.2 hm
    rw [if_neg h2]
    by_cases h3 : data.length < 17
    case pos =>
      rw [if_pos h3]
      simp only [reduceCtorEq, false_iff]
      rintro ⟨-, -, hlen, -⟩
      omega
    rw [if_neg h3]
    by_cases h4 : leU32At data 10 = 0 ∨ (data.drop 15).length < leU32At data 10
    case pos =>
      rw [if_pos h4]
      simp only [reduceCtorEq, false_iff]
      rintro ⟨-, -, hlen, hx0, hxle, -⟩
      rcases h4 with h4 | h4
      · exact hx0 h4
      · rw [List.length_drop] at h4
        omega
    rw [if_neg h4]
    push_neg at h4
    have h4' : leU32At data 10 ≤ data.length - 15 := by
      have := h4.2
      rw [List.length_drop] at this
      omega
    have hzlen :
        ((data.drop 15).drop ((data.drop 15).length - leU32At data 10)).length =
          leU32At data 10 := by
      simp only [List.length_drop]
      omega
    rw [hzlen]
    by_cases h5 : 2 ≤ leU32At data 10
    case neg =>
      rw [if_neg h5]
      simp only [reduceCtorEq, false_iff]
      rintro ⟨-, -, -, -, -, hx2, -⟩
      exact h5 hx2
    rw [if_pos h5]
    have hget2 :
        ((data.drop 15).drop ((data.drop 15).length - leU32At data 10)).getD
            (leU32At data 10 - 2) 0 = data.getD (data.length - 2) 0 := by
      simp only [List.getD, List.get?_eq_getElem?, List.getElem?_drop, List.length_drop]
      have hidx : 15 + (data.length - 15 - leU32At data 10 + (leU32At data 10 - 2)) =
          data.length - 2 := by omega
      rw [hidx]
    have hget1 :
        ((data.drop 15).drop ((data.drop 15).length - leU32At data 10)).getD
            (leU32At data 10 - 1) 0 = data.getD (data.length - 1) 0 := by
      simp only [List.getD, List.get?_eq_getElem?, List.getElem?_drop, List.length_drop]
      have hidx : 15 + (data.length - 15 - leU32At data 10 + (leU32At data 10 - 1)) =
          data.length - 1 := by omega
      rw [hidx]
    rw [hget2, hget1]
    by_cases h6 : data.getD (data.length - 2) 0 ^^^ 255 =
        data.getD (data.length - 1) 0 ^^^ 217
    case neg =>
      rw [if_neg h6]
      simp only [reduceCtorEq, false_iff]
      rintro ⟨-, -, -, -, -, -, hk2, hk1⟩
      exact h6 (by omega)
    rw [if_pos h6]
    simp only [Option.some_inj]
    constructor
    · rintro rfl
      refine ⟨h1, ?_, by omega, h4.1, h4', h5, rfl, h6⟩
      by_cases hf1 : V4_FORMAT1_HEADER.isPrefixOf data
      · exact Or.inl hf1
      · rcases not_or.mp h2 with ⟨-, hnm⟩
        refine Or.inr ?_
        by_contra hf2
        exact hnm ⟨hf1, hf2⟩
    · rintro ⟨-, -, -, -, -, -, rfl, -⟩
      rfl
  · intro cur pre post f k hpre hf
    induction pre with
    | nil =>
      simp only [List.nil_append, scan_and_set_xor_key]
      rw [hf]
    | cons g gs ih =>
      have hg := hpre g (by simp)
      simp only [List.cons_append, scan_and_set_xor_key]
      rw [hg]
      exact ih (fun g' hg' => hpre g' (by simp [hg']))
  · intro files hnone
    induction files with
    | nil => rfl
    | cons g gs ih =>
      have hg := hnone g (by simp)
      simp only [scan_and_set_xor_key]
      rw [hg]
      exact ih (fun g' hg' => hnone g' (by simp [hg']))

/-- Witness for C8 at concrete inputs: a thumbnail masked with `0xAF` is
recovered, and an empty scan returns the default. -/
theorem C8_xor_probe_witness :
    scan_and_set_xor_key 0x37
      [("b.dat".toList, [1, 2, 3]),
       ("a_t.dat".toList,
        [7, 8, 0x56, 0x32, 0, 0, 0, 0, 0, 0, 4, 0, 0, 0, 0] ++
          [9, 9, 0xFF ^^^ 0xAF, 0xD9 ^^^ 0xAF])] = 0xAF ∧
    scan_and_set_xor_key 0x37 [] = 0x37 := by
  constructor
  · exact C8_xor_probe.2.1 0x37 [("b.dat".toList, [1, 2, 3])] []
      ("a_t.dat".toList,
        [7, 8, 0x56, 0x32, 0, 0, 0, 0, 0, 0, 4, 0, 0, 0, 0] ++
          [9, 9, 0xFF ^^^ 0xAF, 0xD9 ^^^ 0xAF]) 0xAF
      (by rintro g hg; simp only [List.mem_singleton] at hg; subst hg; decide)
      (by decide)
  · exact C8_xor_probe.2.2 [] (by intro g hg; cases hg)

/-- Chunk list of an admissible region with `64MiB < size ≤ 128MiB`. -/
theorem regionChunks_two (m : MBI) (ha : regionAdmissible m)
    (h1 : MAX_CHUNK_SIZE < m.size) (h2 : m.size ≤ 2 * MAX_CHUNK_SIZE) :
    regionChunks m = [(m.base, MAX_CHUNK_SIZE, m.protect),
      (m.base + MAX_CHUNK_SIZE, m.size - MAX_CHUNK_SIZE, m.protect)] := by
  unfold regionChunks
  rw [if_pos ha, if_neg (by omega)]
  rw [show MAX_CHUNK_SIZE = 67108864 from rfl] at h1 h2 ⊢
  have hk : (min m.size (3 * 67108864) + 67108864 - 1) / 67108864 = 2 := by omega
  rw [hk, show List.range 2 = [0, 1] from rfl]
  simp only [List.map_cons, List.map_nil, Nat.zero_mul, Nat.one_mul, Nat.add_zero,
    Nat.sub_zero]
  rw [Nat.min_eq_left (by omega), Nat.min_eq_right (by omega)]

/-- Chunk list of an admissible region with `128MiB < size`: exactly three
chunks, covering the first `min size 192MiB` bytes. -/
theorem regionChunks_three (m : MBI) (ha : regionAdmissible m)
    (h1 : 2 * MAX_CHUNK_SIZE < m.size) :
    regionChunks m = [(m.base, MAX_CHUNK_SIZE, m.protect),
      (m.base + MAX_CHUNK_SIZE, MAX_CHUNK_SIZE, m.protect),
      (m.base + 2 * MAX_CHUNK_SIZE, min MAX_CHUNK_SIZE (m.size - 2 * MAX_CHUNK_SIZE),
        m.protect)] := by
  unfold regionChunks
  rw [if_pos ha, if_neg (by rw [show MAX_CHUNK_SIZE = 67108864 from rfl] at h1 ⊢; omega)]
  rw [show MAX_CHUNK_SIZE = 67108864 from rfl] at h1 ⊢
  have hk : (min m.size (3 * 67108864) + 67108864 - 1) / 67108864 = 3 := by omega
  rw [hk, show List.range 3 = [0, 1, 2] from rfl]
  simp only [List.map_cons, List.map_nil, Nat.zero_mul, Nat.one_mul, Nat.add_zero,
    Nat.sub_zero]
  rw [Nat.min_eq_left (by omega), Nat.min_eq_left (by omega)]

/-- C5 (amended): the Windows region enumerator yields, per queried region
and in ascending base order, exactly the committed, PAGE_READWRITE-flagged,
private regions of size between 1 MiB and 512 MiB; an admissible region of
at most 64 MiB is emitted as is, a larger admissible one as at most 3 chunks
of at most 64 MiB covering at most its first 192 MiB — and a region larger
than 512 MiB is dropped entirely, not truncated. -/
theorem C5_enum_regions (m : MBI) :
    (regionChunks m ≠ [] ↔ regionAdmissible m) ∧
    (regionChunks m).length ≤ 3 ∧
    (∀ c ∈ regionChunks m, c.2.1 ≤ MAX_CHUNK_SIZE ∧ m.base ≤ c.1) ∧
    (regionAdmissible m → m.size ≤ MAX_CHUNK_SIZE →
      regionChunks m = [(m.base, m.size, m.protect)]) ∧
    (regionAdmissible m → MAX_CHUNK_SIZE < m.size → m.size ≤ 2 * MAX_CHUNK_SIZE →
      regionChunks m = [(m.base, MAX_CHUNK_SIZE, m.protect),
        (m.base + MAX_CHUNK_SIZE, m.size - MAX_CHUNK_SIZE, m.protect)]) ∧
    (regionAdmissible m → 2 * MAX_CHUNK_SIZE < m.size →
      regionChunks m = [(m.base, MAX_CHUNK_SIZE, m.protect),
        (m.base + MAX_CHUNK_SIZE, MAX_CHUNK_SIZE, m.protect),
        (m.base + 2 * MAX_CHUNK_SIZE, min MAX_CHUNK_SIZE (m.size - 2 * MAX_CHUNK_SIZE),
          m.protect)]) ∧
    (512 * MIB < m.size → regionChunks m = []) ∧
    (regionChunks m).Pairwise (fun a b => a.1 < b.1) ∧
    enum_regions [m] = regionChunks m := by
  have henum : enum_regions [m] = regionChunks m := by
    simp [enum_regions]
  have hMpos : 0 < MAX_CHUNK_SIZE := by unfold MAX_CHUNK_SIZE; omega
  by_cases ha : regionAdmissible m
  · have hanum := ha
    unfold regionAdmissible at hanum
    have hnbig : ¬ 512 * MIB < m.size := by omega
    by_cases hsz : m.size ≤ MAX_CHUNK_SIZE
    · have hone : regionChunks m = [(m.base, m.size, m.protect)] := by
        unfold regionChunks
        rw [if_pos ha, if_pos hsz]
      rw [hone] at henum ⊢
      refine ⟨by simp [ha], by simp, ?_, fun _ _ => rfl,
        fun _ h _ => absurd h (by omega), fun _ h => absurd h (by omega),
        fun hs => absurd hs hnbig, by simp, henum⟩
      rintro c hc
      simp only [List.mem_singleton] at hc
      subst hc
      exact ⟨hsz, le_refl _⟩
    · by_cases hsz2 : m.size ≤ 2 * MAX_CHUNK_SIZE
      · have htwo := regionChunks_two m ha (by omega) hsz2
        rw [htwo] at henum ⊢
        refine ⟨by simp [ha], by simp, ?_, fun _ h => absurd h hsz,
          fun _ _ _ => rfl, fun _ h => absurd h (by omega),
          fun hs => absurd hs hnbig, ?_, henum⟩
        · rintro c hc
          simp only [List.mem_cons, List.not_mem_nil, or_false] at hc
          rcases hc with rfl | rfl
          · exact ⟨le_refl _, le_refl _⟩
          · refine ⟨?_, ?_⟩ <;> dsimp only <;> omega
        · simp only [List.pairwise_cons, List.mem_cons, List.not_mem_nil, or_false,
            List.Pairwise.nil, and_true]
          refine ⟨?_, ?_⟩
          · rintro b rfl
            dsimp only
            omega
          · simp
      · have hthree := regionChunks_three m ha (by omega)
        rw [hthree] at henum ⊢
        refine ⟨by simp [ha], by simp, ?_, fun _ h => absurd h hsz,
          fun _ _ h => absurd h (by omega), fun _ _ => rfl,
          fun hs => absurd hs hnbig, ?_, henum⟩
        · rintro c hc
          simp only [List.mem_cons, List.not_mem_nil, or_false] at hc
          rcases hc with rfl | rfl | rfl
          · exact ⟨le_refl _, le_refl _⟩
          · refine ⟨?_, ?_⟩ <;> dsimp only <;> omega
          · refine ⟨?_, ?_⟩ <;> dsimp only
            · exact min_le_left _ _
            · omega
        · simp only [List.pairwise_cons, List.mem_cons, List.not_mem_nil, or_false,
            List.Pairwise.nil, and_true]
          refine ⟨?_, ?_, by simp⟩
          · rintro b hb
            rcases hb with rfl | rfl <;> dsimp only <;> omega
          · rintro b rfl
            dsimp only
            omega
  · have hnone : regionChunks m = [] := by
      unfold regionChunks
      rw [if_neg ha]
    rw [hnone] at henum ⊢
    exact ⟨by simp [ha], by simp, by simp, fun h => absurd h ha,
      fun h => absurd h ha, fun h => absurd h ha, fun _ => rfl, by simp, henum⟩

/-- Witness for C5 at a concrete admissible 200 MiB region: three chunks,
the third truncated. -/
theorem C5_enum_regions_witness :
    regionChunks ⟨0x10000, 200 * MIB, MEM_COMMIT, PAGE_READWRITE, MEM_PRIVATE⟩ =
      [(0x10000, MAX_CHUNK_SIZE, PAGE_READWRITE),
       (0x10000 + MAX_CHUNK_SIZE, MAX_CHUNK_SIZE, PAGE_READWRITE),
       (0x10000 + 2 * MAX_CHUNK_SIZE,
         min MAX_CHUNK_SIZE (200 * MIB - 2 * MAX_CHUNK_SIZE), PAGE_READWRITE)] := by
  exact (C5_enum_regions ⟨0x10000, 200 * MIB, MEM_COMMIT, PAGE_READWRITE,
    MEM_PRIVATE⟩).2.2.2.2.2.1 (by decide) (by decide)

/-- C5 counterexample: a committed, read-write, private region of 513 MiB —
larger than 512 MiB — is dropped by `enum_regions` (the claim says it would
still be emitted, truncated to its first 3 chunks). -/
theorem C5_enum_regions_cex :
    enum_regions [⟨0x10000, 513 * MIB, MEM_COMMIT, PAGE_READWRITE, MEM_PRIVATE⟩] = [] ∧
    512 * MIB < 513 * MIB := by
  constructor
  · decide
  · decide

/-- The magic-dispatch tail shared verbatim by `dat2image_v4` and
`_convert_v4_format`: `wxgf` goes to the sub-decoder, otherwise the first
matching entry of `FORMATS` names the extension, otherwise
`UnknownImageFormat`. -/
def formatDispatch (wx : List Nat → Except DecErr (List Nat × String))
    (result : List Nat) : Except DecErr (List Nat × String) :=
  if WXGF.header.isPrefixOf result then wx result
  else
    match FORMATS.find? (fun f => f.header.isPrefixOf result) with
    | some f => .ok (result, f.ext)
    | none => .error .unknownFormat

/-- The assembled three-zone plaintext `dec[:aes_len] + mid + xored tail`
built by `dat2image_v4` after a successful `decrypt_aes_ecb`. -/
def v4Result (aesDec : List Nat → List Nat → List Nat) (xorKey : Nat)
    (aes_key data : List Nat) : List Nat :=
  let aes_len := leU32At data 6
  let xor_len := leU32At data 10
  let payload := data.drop 15
  let aes_len0 := aesZoneLen aes_len payload.length
  let dec := pkcs7Strip (ecbDecryptBlocks (aesDec aes_key) (payload.take aes_len0))
  let mid_end : Int := (payload.length : Int) - (xor_len : Int)
  let part1 := dec.take aes_len
  let part2 :=
    if (aes_len0 : Int) < mid_end then (payload.take mid_end.toNat).drop aes_len0
    else []
  let part3 :=
    if 0 < xor_len ∧ mid_end < (payload.length : Int) then
      (pyDropFrom payload mid_end).map (fun b => b ^^^ xorKey)
    else []
  part1 ++ part2 ++ part3

/-- The possible outcomes of the dispatch tail. -/
theorem formatDispatch_cases (wx : List Nat → Except DecErr (List Nat × String))
    (r : List Nat) :
    formatDispatch wx r = wx r ∨
    (∃ f, FORMATS.find? (fun f => f.header.isPrefixOf r) = some f ∧
      formatDispatch wx r = .ok (r, f.ext)) ∨
    formatDispatch wx r = .error .unknownFormat := by
  unfold formatDispatch
  by_cases hwg : WXGF.header.isPrefixOf r
  · rw [if_pos hwg]
    exact Or.inl rfl
  · rw [if_neg hwg]
    rcases hf : FORMATS.find? (fun f => f.header.isPrefixOf r) with _ | f
    · exact Or.inr (Or.inr (by rw [hf]))
    · exact Or.inr (Or.inl ⟨f, hf, by rw [hf]⟩)

/-- Unfolding of `dat2image_v4` when the clamped AES zone length is a
multiple of 16 (so `decrypt_aes_ecb` succeeds): the decode is the assembled
three-zone result dispatched on its magic. -/
theorem dat2image_v4_ok_form (wx : List Nat → Except DecErr (List Nat × String))
    (aesDec : List Nat → List Nat → List Nat) (xorKey : Nat)
    (aes_key data : List Nat) (hlen : 15 ≤ data.length)
    (hz : aesZoneLen (leU32At data 6) (data.length - 15) % 16 = 0) :
    dat2image_v4 wx aesDec xorKey aes_key data =
      formatDispatch wx (v4Result aesDec xorKey aes_key data) := by
  simp only [dat2image_v4]
  rw [if_neg (by omega)]
  have htk : ((data.drop 15).take
      (aesZoneLen (leU32At data 6) (data.drop 15).length)).length % 16 = 0 := by
    rw [List.length_take, List.length_drop]
    have hle : aesZoneLen (leU32At data 6) (data.length - 15) ≤ data.length - 15 :=
      min_le_right _ _
    rw [Nat.min_eq_left hle]
    exact hz
  unfold decrypt_aes_ecb
  rw [if_neg (by omega)]
  rfl

/-- When the clamped AES zone length is not a multiple of 16 — which happens
exactly when `len(payload)` is below the unclamped zone length and not a
multiple of 16 — `dat2image_v4` raises the block-length `ValueError`. -/
theorem dat2image_v4_blockLen (wx : List Nat → Except DecErr (List Nat × String))
    (aesDec : List Nat → List Nat → List Nat) (xorKey : Nat)
    (aes_key data : List Nat) (hlen : 15 ≤ data.length)
    (hz : aesZoneLen (leU32At data 6) (data.length - 15) % 16 ≠ 0) :
    dat2image_v4 wx aesDec xorKey aes_key data = .error .blockLen := by
  simp only [dat2image_v4]
  rw [if_neg (by omega)]
  have htk : ((data.drop 15).take
      (aesZoneLen (leU32At data 6) (data.drop 15).length)).length % 16 ≠ 0 := by
    rw [List.length_take, List.length_drop]
    have hle : aesZoneLen (leU32At data 6) (data.length - 15) ≤ data.length - 15 :=
      min_le_right _ _
    rw [Nat.min_eq_left hle]
    exact hz
  unfold decrypt_aes_ecb
  rw [if_pos htk]

/-- C2 (amended): the AES zone length is
`aes_len0 = min((aes_len // 16) * 16 + 16, len(payload))`, which equals the
claimed ceiling formula exactly when `aes_len` is not a multiple of 16 (for a
multiple it is 16 bytes longer, clamped); the AES decryption of
`payload[0..aes_len0]` is attempted unconditionally — also when
`aes_len == 0` — so the block-length error is raised iff `aes_len0` is not a
multiple of 16; and PKCS#7 padding is stripped exactly when the last
decrypted byte `p` is in `[1, 16]` and the final `p` bytes all equal `p`. -/
theorem C2_aes_zone (wx : List Nat → Except DecErr (List Nat × String))
    (aesDec : List Nat → List Nat → List Nat) (xorKey : Nat)
    (aes_key data : List Nat) (hlen : 15 ≤ data.length)
    (hwx : ∀ r, wx r ≠ Except.error DecErr.blockLen) :
    (leU32At data 6 % 16 ≠ 0 →
      aesZoneLen (leU32At data 6) (data.length - 15) =
        min ((leU32At data 6 + 16 - 1) / 16 * 16) (data.length - 15)) ∧
    (leU32At data 6 % 16 = 0 →
      aesZoneLen (leU32At data 6) (data.length - 15) =
        min (leU32At data 6 + 16) (data.length - 15)) ∧
    (dat2image_v4 wx aesDec xorKey aes_key data = .error .blockLen ↔
      aesZoneLen (leU32At data 6) (data.length - 15) % 16 ≠ 0) ∧
    (∀ out p, out.getLast? = some p →
      pkcs7Strip out =
        if 0 < p ∧ p ≤ 16 ∧ (out.drop (out.length - p)).all (fun b => b == p)
        then out.take (out.length - p) else out) := by
  refine ⟨?_, ?_, ?_, ?_⟩
  · intro hm
    unfold aesZoneLen
    omega
  · intro hm
    unfold aesZoneLen
    omega
  · by_cases hz : aesZoneLen (leU32At data 6) (data.length - 15) % 16 = 0
    · rw [dat2image_v4_ok_form wx aesDec xorKey aes_key data hlen hz]
      simp only [hz, ne_eq, not_true_eq_false, iff_false]
      intro hcontra
      rcases formatDispatch_cases wx (v4Result aesDec xorKey aes_key data) with
        he | ⟨f, -, he⟩ | he
      · rw [he] at hcontra
        exact hwx _ hcontra
      · rw [he] at hcontra
        exact absurd hcontra (by simp)
      · rw [he] at hcontra
        exact absurd hcontra (by simp)
    · rw [dat2image_v4_blockLen wx aesDec xorKey aes_key data hlen hz]
      simp [hz]
  · intro out p hp
    unfold pkcs7Strip
    rw [hp]

/-- Witness for C2: at a 31-byte all-zero container the clamped zone is 16,
so no block-length error is raised. -/
theorem C2_aes_zone_witness :
    (dat2image_v4 wxFail (fun _ b => b) 0x37 [] (List.replicate 31 0) =
        Except.error DecErr.blockLen ↔
      aesZoneLen (leU32At (List.replicate 31 0) 6) ((List.replicate 31 0).length - 15) %
          16 ≠ 0) := by
  exact (C2_aes_zone wxFail (fun _ b => b) 0x37 [] (List.replicate 31 0)
    (by decide) (fun r => by simp [wxFail])).2.2.1

/-- C2 counterexample: at `aes_len = 16` the code's zone length is 32, not
the claimed `ceil(aes_len/16)*16 = 16`; and at `aes_len = 0` with a 4-byte
payload the decoder still attempts AES decryption and raises the block-length
error, which could not happen if decryption ran only when `aes_len > 0`. -/
theorem C2_aes_zone_cex :
    aesZoneLen 16 100 ≠ min ((16 + 16 - 1) / 16 * 16) 100 ∧
    dat2image_v4 wxFail (fun _ b => b) 0x37 []
      ([7, 8, 0x56, 0x32, 0, 0, 0, 0, 0, 0, 0, 0, 0, 0, 0] ++ List.replicate 4 0) =
      .error .blockLen := by
  constructor
  · decide
  · decide

/-- C6 (amended): for any input of at least 15 bytes whose clamped AES zone
length is a multiple of 16 — in particular whenever the length fields only
overshoot (`aes_len + xor_len > len(payload)`) but the payload length is 0 or
a multiple of 16 or at least the unclamped zone — the decoder proceeds with
the clamped zone lengths and either returns a result, fails with
`UnknownImageFormat`, or hands a `wxgf` result to the sub-decoder; but when
the clamped zone is not a multiple of 16 it raises the AES block-length
`ValueError`, a third error kind the claim does not allow. -/
theorem C6_error_kinds (wx : List Nat → Except DecErr (List Nat × String))
    (aesDec : List Nat → List Nat → List Nat) (xorKey : Nat)
    (aes_key data : List Nat) (hlen : 15 ≤ data.length)
    (hz : aesZoneLen (leU32At data 6) (data.length - 15) % 16 = 0) :
    (∃ r, dat2image_v4 wx aesDec xorKey aes_key data = .ok r) ∨
    dat2image_v4 wx aesDec xorKey aes_key data = .error .unknownFormat ∨
    (∃ res, dat2image_v4 wx aesDec xorKey aes_key data = wx res) := by
  rw [dat2image_v4_ok_form wx aesDec xorKey aes_key data hlen hz]
  rcases formatDispatch_cases wx (v4Result aesDec xorKey aes_key data) with
    he | ⟨f, -, he⟩ | he
  · exact Or.inr (Or.inr ⟨_, he⟩)
  · exact Or.inl ⟨_, he⟩
  · exact Or.inr (Or.inl he)

/-- Witness for C6 at a 31-byte all-zero container. -/
theorem C6_error_kinds_witness :
    (∃ r, dat2image_v4 wxFail (fun _ b => b) 0x37 [] (List.replicate 31 0) = .ok r) ∨
    dat2image_v4 wxFail (fun _ b => b) 0x37 [] (List.replicate 31 0) =
      .error .unknownFormat ∨
    (∃ res, dat2image_v4 wxFail (fun _ b => b) 0x37 [] (List.replicate 31 0) =
      wxFail res) := by
  exact C6_error_kinds wxFail (fun _ b => b) 0x37 [] (List.replicate 31 0)
    (by decide) (by decide)

/-- C6 counterexample: a 20-byte input whose header claims `aes_len = 100`
(so `aes_len + xor_len = 100 > 5 = len(payload)`) makes the decoder raise the
block-length error — an error kind other than `TooShort` and
`UnknownImageFormat`. -/
theorem C6_error_kinds_cex :
    dat2image_v4 wxFail (fun _ b => b) 0x37 []
        ([7, 8, 0x56, 0x32, 0, 0, 100, 0, 0, 0, 0, 0, 0, 0, 0] ++ List.replicate 5 0) =
      .error .blockLen ∧
    leU32At ([7, 8, 0x56, 0x32, 0, 0, 100, 0, 0, 0, 0, 0, 0, 0, 0] ++
        List.replicate 5 0) 6 +
      leU32At ([7, 8, 0x56, 0x32, 0, 0, 100, 0, 0, 0, 0, 0, 0, 0, 0] ++
        List.replicate 5 0) 10 >
      ([7, 8, 0x56, 0x32, 0, 0, 100, 0, 0, 0, 0, 0, 0, 0, 0] ++
        List.replicate 5 0).length - 15 ∧
    DecErr.blockLen ≠ DecErr.tooShort ∧ DecErr.blockLen ≠ DecErr.unknownFormat := by
  refine ⟨by decide, by decide, by decide, by decide⟩

/-- Each 16-byte-block-preserving decryption keeps the length of a
16-multiple input. -/
theorem ecbDecryptBlocksAux_length (dec : List Nat → List Nat)
    (hdec : ∀ b, b.length = 16 → (dec b).length = 16) :
    ∀ fuel data, data.length ≤ fuel → data.length % 16 = 0 →
      (ecbDecryptBlocksAux dec fuel data).length = data.length := by
  intro fuel
  induction fuel with
  | zero =>
    intro data hle _
    have : data = [] := List.eq_nil_of_length_eq_zero (by omega)
    subst this
    rfl
  | succ n ih =>
    intro data hle hm
    match data with
    | [] => rfl
    | b :: bs =>
      simp only [ecbDecryptBlocksAux, List.length_append]
      have hlen16 : 16 ≤ (b :: bs).length := by
        simp only [List.length_cons] at hm ⊢
        omega
      have h1 : (List.take 16 (b :: bs)).length = 16 := by
        rw [List.length_take]
        omega
      rw [hdec _ h1]
      have h2 : (List.drop 15 bs).length = (b :: bs).length - 16 := by
        rw [List.length_drop]
        simp only [List.length_cons]
        omega
      rw [ih (List.drop 15 bs)
        (by simp only [List.length_cons] at hle; rw [h2]; simp only [List.length_cons]; omega)
        (by rw [h2]; simp only [List.length_cons] at hm ⊢; omega)]
      rw [h2]
      simp only [List.length_cons] at hm ⊢
      omega

/-- `ecbDecryptBlocks` preserves the length of a 16-multiple input. -/
theorem ecbDecryptBlocks_length (dec : List Nat → List Nat)
    (hdec : ∀ b, b.length = 16 → (dec b).length = 16)
    (data : List Nat) (hm : data.length % 16 = 0) :
    (ecbDecryptBlocks dec data).length = data.length :=
  ecbDecryptBlocksAux_length dec hdec data.length data (le_refl _) hm

/-- PKCS#7 stripping never lengthens. -/
theorem pkcs7Strip_length_le (out : List Nat) : (pkcs7Strip out).length ≤ out.length := by
  unfold pkcs7Strip
  split
  · exact le_refl _
  · split
    · rw [List.length_take]
      omega
    · exact le_refl _

/-- Length of the assembled three-zone result in the well-formed regime:
clamped zone a multiple of 16, XOR zone within the part of the payload after
the AES zone, and `aes_len` bytes available after padding strip. -/
theorem v4Result_length (aesDec : List Nat → List Nat → List Nat) (xorKey : Nat)
    (aes_key data : List Nat)
    (hdec : ∀ b, b.length = 16 → (aesDec aes_key b).length = 16)
    (hz : aesZoneLen (leU32At data 6) (data.length - 15) % 16 = 0)
    (hxor : leU32At data 10 ≤
      (data.length - 15) - aesZoneLen (leU32At data 6) (data.length - 15))
    (haes : leU32At data 6 ≤ (pkcs7Strip (ecbDecryptBlocks (aesDec aes_key)
      ((data.drop 15).take (aesZoneLen (leU32At data 6) (data.length - 15))))).length) :
    (v4Result aesDec xorKey aes_key data).length =
      (data.length - 15) -
        (aesZoneLen (leU32At data 6) (data.length - 15) - leU32At data 6) := by
  unfold v4Result
  simp only [List.length_drop]
  have hAle : aesZoneLen (leU32At data 6) (data.length - 15) ≤ data.length - 15 :=
    min_le_right _ _
  have htake : ((data.drop 15).take
      (aesZoneLen (leU32At data 6) (data.length - 15))).length =
      aesZoneLen (leU32At data 6) (data.length - 15) := by
    rw [List.length_take, List.length_drop]
    omega
  have hecb : (ecbDecryptBlocks (aesDec aes_key)
      ((data.drop 15).take (aesZoneLen (leU32At data 6) (data.length - 15)))).length =
      aesZoneLen (leU32At data 6) (data.length - 15) := by
    rw [ecbDecryptBlocks_length (aesDec aes_key) hdec _ (by rw [htake]; exact hz), htake]
  have hstrip : (pkcs7Strip (ecbDecryptBlocks (aesDec aes_key)
      ((data.drop 15).take (aesZoneLen (leU32At data 6) (data.length - 15))))).length ≤
      aesZoneLen (leU32At data 6) (data.length - 15) :=
    le_trans (pkcs7Strip_length_le _) (le_of_eq hecb)
  have hal : leU32At data 6 ≤ aesZoneLen (leU32At data 6) (data.length - 15) :=
    le_trans haes hstrip
  simp only [List.length_append, List.length_take, List.length_drop, List.length_map]
  rw [Nat.min_eq_left haes]
  by_cases hmid : ((aesZoneLen (leU32At data 6) (data.length - 15) : Nat) : Int) <
      ((data.length - 15 : Nat) : Int) - (leU32At data 10 : Int)
  · rw [if_pos hmid]
    by_cases hx : 0 < leU32At data 10 ∧
        ((data.length - 15 : Nat) : Int) - (leU32At data 10 : Int) <
          ((data.length - 15 : Nat) : Int)
    · rw [if_pos hx]
      unfold pyDropFrom
      rw [if_pos (by omega)]
      simp only [List.length_take, List.length_drop, List.length_map]
      omega
    · rw [if_neg hx]
      simp only [List.length_take, List.length_drop, List.length_nil]
      omega
  · rw [if_neg hmid]
    by_cases hx : 0 < leU32At data 10 ∧
        ((data.length - 15 : Nat) : Int) - (leU32At data 10 : Int) <
          ((data.length - 15 : Nat) : Int)
    · rw [if_pos hx]
      unfold pyDropFrom
      rw [if_pos (by omega)]
      simp only [List.length_nil, List.length_drop, List.length_map]
      omega
    · rw [if_neg hx]
      simp only [List.length_nil]
      omega

/-- C4 (amended): for a successfully decoded non-`wxgf` Format-2 container
whose clamped AES zone is a multiple of 16, whose XOR zone fits after the AES
zone, and whose stripped AES plaintext still holds `aes_len` bytes,
`len(output) = len(payload) - d` where `d = aes_block_len - aes_len ∈ [0, 16]`
is the AES-zone overhead — in particular for `aes_len = 0`, `xor_len = 0` and
`len(payload) ≥ 16` the decoder consumes the whole first 16-byte block and
`len(output) = len(payload) - 16`, not `len(payload)`. -/
theorem C4_output_length (aesDec : List Nat → List Nat → List Nat) (xorKey : Nat)
    (aes_key data out : List Nat) (ext : String)
    (hlen : 15 ≤ data.length)
    (hdec : ∀ b, b.length = 16 → (aesDec aes_key b).length = 16)
    (hz : aesZoneLen (leU32At data 6) (data.length - 15) % 16 = 0)
    (hxor : leU32At data 10 ≤
      (data.length - 15) - aesZoneLen (leU32At data 6) (data.length - 15))
    (haes : leU32At data 6 ≤ (pkcs7Strip (ecbDecryptBlocks (aesDec aes_key)
      ((data.drop 15).take (aesZoneLen (leU32At data 6) (data.length - 15))))).length)
    (hok : dat2image_v4 wxFail aesDec xorKey aes_key data = .ok (out, ext)) :
    aesZoneLen (leU32At data 6) (data.length - 15) - leU32At data 6 ≤ 16 ∧
    out.length = (data.length - 15) -
      (aesZoneLen (leU32At data 6) (data.length - 15) - leU32At data 6) := by
  have hd16 : aesZoneLen (leU32At data 6) (data.length - 15) - leU32At data 6 ≤ 16 := by
    unfold aesZoneLen
    omega
  refine ⟨hd16, ?_⟩
  rw [dat2image_v4_ok_form wxFail aesDec xorKey aes_key data hlen hz] at hok
  rcases formatDispatch_cases wxFail (v4Result aesDec xorKey aes_key data) with
    he | ⟨f, -, he⟩ | he
  · rw [he] at hok
    exact absurd hok (by simp [wxFail])
  · rw [he] at hok
    have hpair : (v4Result aesDec xorKey aes_key data, f.ext) = (out, ext) := by
      injection hok
    have hout : v4Result aesDec xorKey aes_key data = out := congrArg Prod.fst hpair
    rw [← hout]
    exact v4Result_length aesDec xorKey aes_key data hdec hz hxor haes
  · rw [he] at hok
    exact absurd hok (by simp)

/-- Concrete container for the C4 witness: `aes_len = 3`, `xor_len = 0`,
16-byte payload decrypting (under the identity block cipher) to a JPEG
prefix with no valid PKCS#7 padding. -/
def c4wdata : List Nat :=
  [7, 8, 0x56, 0x32, 0, 0, 3, 0, 0, 0, 0, 0, 0, 0, 0] ++
    ([0xFF, 0xD8, 0xFF] ++ List.replicate 12 1 ++ [0])

/-- Witness for C4 at `c4wdata`: 3 output bytes from a 16-byte payload. -/
theorem C4_output_length_witness :
    aesZoneLen (leU32At c4wdata 6) (c4wdata.length - 15) - leU32At c4wdata 6 ≤ 16 ∧
    ([0xFF, 0xD8, 0xFF] : List Nat).length =
      (c4wdata.length - 15) -
        (aesZoneLen (leU32At c4wdata 6) (c4wdata.length - 15) - leU32At c4wdata 6) := by
  exact C4_output_length (fun _ b => b) 0x37 [] c4wdata [0xFF, 0xD8, 0xFF] "jpg"
    (by decide) (fun _ hb => hb) (by decide) (by decide) (by decide) (by decide)

/-- Concrete container for the C4 counterexample: `aes_len = 0`,
`xor_len = 0`, 32-byte payload whose first decrypted block has no valid
PKCS#7 padding. -/
def c4cdata : List Nat :=
  [7, 8, 0x56, 0x32, 0, 0, 0, 0, 0, 0, 0, 0, 0, 0, 0] ++
    ((List.range 15).map (fun i => i + 1) ++ [0] ++ ([0x42, 0x4D] ++ List.replicate 14 7))

/-- C4 counterexample: with `aes_len = 0` and no valid padding the decode
still succeeds but returns 16 bytes from a 32-byte payload — the first
16-byte AES block is consumed and discarded, so
`len(output) ≠ len(payload)`. -/
theorem C4_output_length_cex :
    dat2image_v4 wxFail (fun _ b => b) 0x37 [] c4cdata =
      .ok ([0x42, 0x4D] ++ List.replicate 14 7, "bmp") ∧
    leU32At c4cdata 6 = 0 ∧
    pkcs7Strip ((List.range 15).map (fun i => i + 1) ++ [0]) =
      (List.range 15).map (fun i => i + 1) ++ [0] ∧
    ([0x42, 0x4D] ++ List.replicate 14 7 : List Nat).length ≠ c4cdata.length - 15 := by
  refine ⟨by decide, by decide, by decide, by decide⟩

/-- C10 (amended): with the same `wxgf` sub-decoder, block cipher, XOR byte
and a nonempty (e.g. 16-byte) key, `_convert_v4_format` and `dat2image_v4`
return identical results on every input — except when `aes_len == 0` and
`0 < len(payload) < 16`: there `dat2image_v4` still decrypts the clamped
(non-16-multiple) zone and raises the block-length error, while
`_convert_v4_format` skips AES and proceeds.  The hypothesis excludes
exactly that diverging regime (`len(data) = 15` or `len(data) ≥ 31` when
`aes_len = 0`). -/
theorem C10_decoder_equivalence (wx : List Nat → Except DecErr (List Nat × String))
    (aesDec : List Nat → List Nat → List Nat) (xorKey : Nat)
    (aes_key data : List Nat) (hkey : aes_key ≠ [])
    (hzero : leU32At data 6 = 0 → data.length = 15 ∨ 31 ≤ data.length) :
    convert_v4_format wx aesDec xorKey aes_key data =
      dat2image_v4 wx aesDec xorKey aes_key data := by
  by_cases hlen : data.length < 15
  · unfold convert_v4_format dat2image_v4
    rw [if_pos hlen, if_pos hlen]
  · simp only [convert_v4_format, dat2image_v4]
    rw [if_neg hlen, if_neg hlen]
    by_cases hal : 0 < leU32At data 6
    · rw [if_pos ⟨hal, hkey⟩]
      cases hdec : decrypt_aes_ecb (aesDec aes_key)
          ((data.drop 15).take (aesZoneLen (leU32At data 6) (data.drop 15).length)) with
      | error e => rfl
      | ok dec => rfl
    · have hal0 : leU32At data 6 = 0 := by omega
      rw [if_neg (by simp [hal0])]
      have hz : (List.take (aesZoneLen (leU32At data 6) (List.drop 15 data).length)
          (List.drop 15 data)).length % 16 = 0 := by
        simp only [List.length_take, List.length_drop, hal0]
        unfold aesZoneLen
        rcases hzero hal0 with h | h <;> omega
      unfold decrypt_aes_ecb
      rw [if_neg (show ¬ (List.take (aesZoneLen (leU32At data 6) (List.drop 15 data).length)
          (List.drop 15 data)).length % 16 ≠ 0 from by omega)]
      simp only [hal0, List.take_zero]

/-- Concrete container for the C10 counterexample: `aes_len = 0`,
`xor_len = 4`, 4-byte payload (`"GIF8"` masked with `0x37`). -/
def c10data : List Nat :=
  [7, 8, 0x56, 0x32, 0, 0, 0, 0, 0, 0, 4, 0, 0, 0, 0] ++
    [0x47 ^^^ 0x37, 0x49 ^^^ 0x37, 0x46 ^^^ 0x37, 0x38 ^^^ 0x37]

/-- C10 counterexample: on `c10data` (length ≥ 15, 16-byte key, same XOR
byte and sub-decoder) `dat2image_v4` raises the block-length error while
`_convert_v4_format` decodes successfully — the two implementations neither
return the same pair nor fail together. -/
theorem C10_decoder_equivalence_cex :
    dat2image_v4 wxFail (fun _ b => b) 0x37 (List.replicate 16 1) c10data =
      .error .blockLen ∧
    convert_v4_format wxFail (fun _ b => b) 0x37 (List.replicate 16 1) c10data =
      .ok ([0x47, 0x49, 0x46, 0x38], "gif") ∧
    convert_v4_format wxFail (fun _ b => b) 0x37 (List.replicate 16 1) c10data ≠
      dat2image_v4 wxFail (fun _ b => b) 0x37 (List.replicate 16 1) c10data := by
  refine ⟨by decide, by decide, by decide⟩

/-- Witness for C10 at a 31-byte all-zero container and a 16-byte key. -/
theorem C10_decoder_equivalence_witness :
    convert_v4_format wxFail (fun _ b => b) 0x37 (List.replicate 16 1)
        (List.replicate 31 0) =
      dat2image_v4 wxFail (fun _ b => b) 0x37 (List.replicate 16 1)
        (List.replicate 31 0) := by
  exact C10_decoder_equivalence wxFail (fun _ b => b) 0x37 (List.replicate 16 1)
    (List.replicate 31 0) (by decide) (fun _ => Or.inr (by decide))

/-- Invariant of the offsets loop: the submitted trace is duplicate-free,
disjoint from the incoming `processed` set, and the outgoing set is exactly
the incoming set plus the trace. -/
theorem tryOffsets_inv (v : List Nat → Bool) (mem : List Nat) (idx : Nat) :
    ∀ (offs : List Int) (processed : List (List Nat)),
      ((tryOffsets v mem idx offs processed).2.2).Nodup ∧
      (∀ k ∈ (tryOffsets v mem idx offs processed).2.2, k ∉ processed) ∧
      (∀ k, k ∈ (tryOffsets v mem idx offs processed).2.1 ↔
        k ∈ processed ∨ k ∈ (tryOffsets v mem idx offs processed).2.2) := by
  intro offs
  induction offs with
  | nil =>
    intro processed
    simp [tryOffsets]
  | cons off rest ih =>
    intro processed
    simp only [tryOffsets]
    by_cases hb : ((idx : Int) + off < 0 ∨ (mem.length : Int) < (idx : Int) + off + 32)
    · rw [if_pos hb]
      exact ih processed
    · rw [if_neg hb]
      by_cases hmem : (mem.drop ((idx : Int) + off).toNat).take 32 ∈ processed
      · rw [if_pos hmem]
        exact ih processed
      · rw [if_neg hmem]
        by_cases hv : v ((mem.drop ((idx : Int) + off).toNat).take 32) = true
        · rw [if_pos hv]
          refine ⟨by simp, ?_, ?_⟩
          · intro k hk
            simp only [List.mem_singleton] at hk
            subst hk
            exact hmem
          · intro k
            simp only [List.mem_cons, List.mem_singleton]
            tauto
        · rw [if_neg hv]
          obtain ⟨ihn, ihd, ihm⟩ :=
            ih ((mem.drop ((idx : Int) + off).toNat).take 32 :: processed)
          refine ⟨?_, ?_, ?_⟩
          · rw [List.nodup_cons]
            refine ⟨?_, ihn⟩
            intro hk
            exact (ihd _ hk) (List.mem_cons_self _ _)
          · intro k hk
            rcases List.mem_cons.mp hk with rfl | hk'
            · exact hmem
            · intro hkp
              exact (ihd _ hk') (List.mem_cons_of_mem _ hkp)
          · intro k
            rw [ihm k]
            simp only [List.mem_cons]
            tauto

/-- Base-case unfolding of `searchLoop`. -/
theorem searchLoop_zero (v : List Nat → Bool) (mem : List Nat) (endI : Int)
    (processed : List (List Nat)) :
    searchLoop v mem 0 endI processed = (none, processed, []) := rfl

/-- Step-case unfolding of `searchLoop`. -/
theorem searchLoop_succ (v : List Nat → Bool) (mem : List Nat) (n : Nat) (endI : Int)
    (processed : List (List Nat)) :
    searchLoop v mem (n + 1) endI processed =
      (if pyRfind mem V4_DATA_PATTERN endI < 0 then (none, processed, [])
       else
         match tryOffsets v mem (pyRfind mem V4_DATA_PATTERN endI).toNat
             V4_DATA_OFFSETS processed with
         | (some k, p, s) => (some k, p, s)
         | (none, p, s) =>
           ((searchLoop v mem n (pyRfind mem V4_DATA_PATTERN endI - 1) p).1,
            (searchLoop v mem n (pyRfind mem V4_DATA_PATTERN endI - 1) p).2.1,
            s ++ (searchLoop v mem n (pyRfind mem V4_DATA_PATTERN endI - 1) p).2.2)) := rfl

/-- Invariant of the pattern-scan loop, composed from `tryOffsets_inv`. -/
theorem searchLoop_inv (v : List Nat → Bool) (mem : List Nat) :
    ∀ (fuel : Nat) (endI : Int) (processed : List (List Nat)),
      ((searchLoop v mem fuel endI processed).2.2).Nodup ∧
      (∀ k ∈ (searchLoop v mem fuel endI processed).2.2, k ∉ processed) ∧
      (∀ k, k ∈ (searchLoop v mem fuel endI processed).2.1 ↔
        k ∈ processed ∨ k ∈ (searchLoop v mem fuel endI processed).2.2) := by
  intro fuel
  induction fuel with
  | zero =>
    intro endI processed
    rw [searchLoop_zero]
    simp
  | succ n ih =>
    intro endI processed
    rw [searchLoop_succ]
    by_cases hi : pyRfind mem V4_DATA_PATTERN endI < 0
    · rw [if_pos hi]
      simp
    · rw [if_neg hi]
      have hT := tryOffsets_inv v mem (pyRfind mem V4_DATA_PATTERN endI).toNat
        V4_DATA_OFFSETS processed
      set t := tryOffsets v mem (pyRfind mem V4_DATA_PATTERN endI).toNat
        V4_DATA_OFFSETS processed with htry
      clear_value t
      obtain ⟨found, p1, s1⟩ := t
      dsimp only at hT ⊢
      obtain ⟨hTn, hTd, hTm⟩ := hT
      cases found with
      | some k => exact ⟨hTn, hTd, hTm⟩
      | none =>
        obtain ⟨hRn, hRd, hRm⟩ := ih (pyRfind mem V4_DATA_PATTERN endI - 1) p1
        dsimp only
        refine ⟨?_, ?_, ?_⟩
        · refine List.Nodup.append hTn hRn ?_
          intro a ha hb
          exact (hRd a hb) ((hTm a).mpr (Or.inr ha))
        · intro k hk
          rcases List.mem_append.mp hk with hk1 | hk2
          · exact hTd k hk1
          · intro hkp
            exact (hRd k hk2) ((hTm k).mpr (Or.inl hkp))
        · intro k
          rw [hRm k, hTm k, List.mem_append]
          tauto

/-- C3 (amended): deduplication is per region, not per extraction — within a
single region scan (one `_search_data_key_block_mac` call, whose `processed`
set starts fresh in `extract_keys`) no candidate key is submitted to the
oracle twice, and no candidate already in the incoming set is submitted; but
the set does not persist across regions, so a candidate validated in an
earlier region is validated again in a later one. -/
theorem C3_dedup_per_region (dbv : Option (List Nat → Bool)) (fuel : Nat)
    (memory : List Nat) (processed : List (List Nat)) :
    ((search_data_key_block_mac dbv fuel memory processed).2.2).Nodup ∧
    ∀ k ∈ (search_data_key_block_mac dbv fuel memory processed).2.2,
      k ∉ processed := by
  cases dbv with
  | none => simp [search_data_key_block_mac]
  | some v =>
    have h := searchLoop_inv v memory fuel (memory.length : Int) processed
    exact ⟨h.1, h.2.1⟩

/-- Witness for C3 on a concrete region scan. -/
theorem C3_dedup_per_region_witness :
    ((search_data_key_block_mac (some (fun _ => false)) 50
        (0 :: V4_DATA_PATTERN ++ List.replicate 40 0) []).2.2).Nodup := by
  exact (C3_dedup_per_region (some (fun _ => false)) 50
    (0 :: V4_DATA_PATTERN ++ List.replicate 40 0) []).1

/-- C3 counterexample: an extraction over two regions holding the same
candidate (an always-rejecting oracle keeps the search going) submits the
same 32-byte candidate to the oracle twice — the dedup set is re-created for
every region, so it does not persist across regions. -/
theorem C3_dedup_cex :
    (extractDataKeyLoop (some (fun _ => false)) 50
        [0 :: V4_DATA_PATTERN ++ List.replicate 40 0,
         0 :: V4_DATA_PATTERN ++ List.replicate 40 0]).2 =
      [List.replicate 32 0, List.replicate 32 0] ∧
    ¬ ((extractDataKeyLoop (some (fun _ => false)) 50
        [0 :: V4_DATA_PATTERN ++ List.replicate 40 0,
         0 :: V4_DATA_PATTERN ++ List.replicate 40 0]).2).Nodup := by
  refine ⟨by decide, by decide⟩

theorem xorResolve {a b c : Nat} (h : a ^^^ b = c) : a ^^^ c = b := by
  subst h
  rw [← Nat.xor_assoc, Nat.xor_self, Nat.zero_xor]

theorem map_xor_invol (x : Nat) (l : List Nat) :
    (l.map (fun b => b ^^^ x)).map (fun b => b ^^^ x) = l := by
  rw [List.map_map]
  have h : ((fun b => b ^^^ x) ∘ (fun b => b ^^^ x)) = fun b : Nat => b := by
    funext b
    simp [Nat.xor_assoc]
  rw [h, List.map_id']

theorem dat2image_plain_jpg (wx : List Nat → Except DecErr (List Nat × String))
    (aesDec : List Nat → List Nat → List Nat) (xorKey : Nat)
    (fmt2Key : List Nat) (d3 : Nat) (rest : List Nat) :
    dat2image wx aesDec xorKey fmt2Key (0xFF :: 0xD8 :: 0xFF :: d3 :: rest) =
      .ok (0xFF :: 0xD8 :: 0xFF :: d3 :: rest, "jpg") := by
  unfold dat2image
  rw [if_neg (by simp only [List.length_cons]; omega)]
  simp [legacyDecodeList, V4_FORMAT1_HEADER, V4_FORMAT2_HEADER, JPG, PNG, GIF, TIFF, BMP,
    WXGF, FORMATS, List.isPrefixOf, List.range_succ]


theorem dat2image_plain_png (wx : List Nat → Except DecErr (List Nat × String))
    (aesDec : List Nat → List Nat → List Nat) (xorKey : Nat)
    (fmt2Key : List Nat) (rest : List Nat) :
    dat2image wx aesDec xorKey fmt2Key (0x89 :: 0x50 :: 0x4E :: 0x47 :: rest) =
      .ok (0x89 :: 0x50 :: 0x4E :: 0x47 :: rest, "png") := by
  unfold dat2image
  rw [if_neg (by simp only [List.length_cons]; omega)]
  simp [legacyDecodeList, V4_FORMAT1_HEADER, V4_FORMAT2_HEADER, JPG, PNG, GIF, TIFF, BMP,
    WXGF, FORMATS, List.isPrefixOf, List.range_succ]

theorem dat2image_plain_gif (wx : List Nat → Except DecErr (List Nat × String))
    (aesDec : List Nat → List Nat → List Nat) (xorKey : Nat)
    (fmt2Key : List Nat) (rest : List Nat) :
    dat2image wx aesDec xorKey fmt2Key (0x47 :: 0x49 :: 0x46 :: 0x38 :: rest) =
      .ok (0x47 :: 0x49 :: 0x46 :: 0x38 :: rest, "gif") := by
  unfold dat2image
  rw [if_neg (by simp only [List.length_cons]; omega)]
  simp [legacyDecodeList, V4_FORMAT1_HEADER, V4_FORMAT2_HEADER, JPG, PNG, GIF, TIFF, BMP,
    WXGF, FORMATS, List.isPrefixOf, List.range_succ]

theorem dat2image_plain_tiff (wx : List Nat → Except DecErr (List Nat × String))
    (aesDec : List Nat → List Nat → List Nat) (xorKey : Nat)
    (fmt2Key : List Nat) (rest : List Nat) :
    dat2image wx aesDec xorKey fmt2Key (0x49 :: 0x49 :: 0x2A :: 0x00 :: rest) =
      .ok (0x49 :: 0x49 :: 0x2A :: 0x00 :: rest, "tiff") := by
  unfold dat2image
  rw [if_neg (by simp only [List.length_cons]; omega)]
  simp [legacyDecodeList, V4_FORMAT1_HEADER, V4_FORMAT2_HEADER, JPG, PNG, GIF, TIFF, BMP,
    WXGF, FORMATS, List.isPrefixOf, List.range_succ]

theorem dat2image_plain_bmp (wx : List Nat → Except DecErr (List Nat × String))
    (aesDec : List Nat → List Nat → List Nat) (xorKey : Nat)
    (fmt2Key : List Nat) (d2 d3 : Nat) (rest : List Nat) :
    dat2image wx aesDec xorKey fmt2Key (0x42 :: 0x4D :: d2 :: d3 :: rest) =
      .ok (0x42 :: 0x4D :: d2 :: d3 :: rest, "bmp") := by
  unfold dat2image
  rw [if_neg (by simp only [List.length_cons]; omega)]
  simp [legacyDecodeList, V4_FORMAT1_HEADER, V4_FORMAT2_HEADER, JPG, PNG, GIF, TIFF, BMP,
    WXGF, FORMATS, List.isPrefixOf, List.range_succ]

/-- C9: on any non-v4 input accepted by the legacy XOR fallback, the output is the
input XORed byte-wise with the detected key x and XORing again with x restores the
input; but the decoder applied to that output returns the output itself (it begins
with the plaintext magic, so the same magic is re-detected with x = 0), not the
original input — the decoder is idempotent on its own legacy output, an involution
only through the external XOR, refuting the claim's final clause. -/
theorem C9_legacy_involution (wx : List Nat → Except DecErr (List Nat × String))
    (aesDec : List Nat → List Nat → List Nat) (xorKey : Nat)
    (fmt2Key : List Nat) (data out : List Nat) (ext : String)
    (hv1 : ¬ V4_FORMAT1_HEADER.isPrefixOf data)
    (hv2 : ¬ V4_FORMAT2_HEADER.isPrefixOf data)
    (hok : dat2image wx aesDec xorKey fmt2Key data = .ok (out, ext)) :
    ∃ x, out = data.map (fun b => b ^^^ x) ∧ data = out.map (fun b => b ^^^ x) ∧
      dat2image wx aesDec xorKey fmt2Key out = .ok (out, ext) := by
  have hlen : ¬ data.length < 4 := by
    intro h
    unfold dat2image at hok
    rw [if_pos h] at hok
    exact absurd hok (by simp)
  rcases data with _ | ⟨d0, _ | ⟨d1, _ | ⟨d2, _ | ⟨d3, rest⟩⟩⟩⟩
  · simp at hlen
  · simp at hlen
  · simp at hlen
  · simp at hlen
  unfold dat2image at hok
  rw [if_neg hlen, if_neg hv1, if_neg hv2] at hok
  simp only [List.nil_append, List.cons_append, List.all_cons, List.all_nil,
    List.getD_cons_zero, List.getD_cons_succ, Bool.and_eq_true, Bool.and_true, beq_iff_eq,
    beq_self_eq_true, true_and, and_true, List.map_cons, legacyDecodeList,
    JPG, PNG, GIF, TIFF, BMP, List.range_succ, List.range_zero,
    List.length_cons, List.length_nil] at hok
  by_cases hJ : d1 ^^^ 216 = d0 ^^^ 255 ∧ d2 ^^^ 255 = d0 ^^^ 255
  · rw [if_pos hJ] at hok
    have e0 : d0 ^^^ (d0 ^^^ 255) = 255 := xorResolve rfl
    have e1 : d1 ^^^ (d0 ^^^ 255) = 216 := xorResolve hJ.1
    have e2 : d2 ^^^ (d0 ^^^ 255) = 255 := xorResolve hJ.2
    rw [e0, e1, e2] at hok
    simp only [FORMATS, JPG, PNG, GIF, TIFF, BMP, WXGF, List.find?, List.isPrefixOf,
      Nat.reduceBEq, beq_self_eq_true, Bool.and_self, Bool.true_and, Bool.and_true,
      Bool.false_and, Bool.and_false, List.isPrefixOf_nil_left, Except.ok.injEq,
      Prod.mk.injEq] at hok
    obtain ⟨ho, he⟩ := hok
    subst ho
    subst he
    have hmap : (255 :: 216 :: 255 :: (d3 ^^^ (d0 ^^^ 255)) :: List.map (fun b => b ^^^ (d0 ^^^ 255)) rest) =
        List.map (fun b => b ^^^ (d0 ^^^ 255)) (d0 :: d1 :: d2 :: d3 :: rest) := by
      simp only [List.map_cons]
      rw [e0, e1, e2]
    refine ⟨d0 ^^^ 255, hmap, ?_, ?_⟩
    · rw [hmap, map_xor_invol]
    · exact dat2image_plain_jpg wx aesDec xorKey fmt2Key (d3 ^^^ (d0 ^^^ 255)) (List.map (fun b => b ^^^ (d0 ^^^ 255)) rest)
  rw [if_neg hJ] at hok
  by_cases hP : d1 ^^^ 80 = d0 ^^^ 137 ∧ d2 ^^^ 78 = d0 ^^^ 137 ∧ d3 ^^^ 71 = d0 ^^^ 137
  · rw [if_pos hP] at hok
    have e0 : d0 ^^^ (d0 ^^^ 137) = 137 := xorResolve rfl
    have e1 : d1 ^^^ (d0 ^^^ 137) = 80 := xorResolve hP.1
    have e2 : d2 ^^^ (d0 ^^^ 137) = 78 := xorResolve hP.2.1
    have e3 : d3 ^^^ (d0 ^^^ 137) = 71 := xorResolve hP.2.2
    rw [e0, e1, e2, e3] at hok
    simp only [FORMATS, JPG, PNG, GIF, TIFF, BMP, WXGF, List.find?, List.isPrefixOf,
      Nat.reduceBEq, beq_self_eq_true, Bool.and_self, Bool.true_and, Bool.and_true,
      Bool.false_and, Bool.and_false, List.isPrefixOf_nil_left, Except.ok.injEq,
      Prod.mk.injEq] at hok
    obtain ⟨ho, he⟩ := hok
    subst ho
    subst he
    have hmap : (137 :: 80 :: 78 :: 71 :: List.map (fun b => b ^^^ (d0 ^^^ 137)) rest) =
        List.map (fun b => b ^^^ (d0 ^^^ 137)) (d0 :: d1 :: d2 :: d3 :: rest) := by
      simp only [List.map_cons]
      rw [e0, e1, e2, e3]
    refine ⟨d0 ^^^ 137, hmap, ?_, ?_⟩
    · rw [hmap, map_xor_invol]
    · exact dat2image_plain_png wx aesDec xorKey fmt2Key (List.map (fun b => b ^^^ (d0 ^^^ 137)) rest)
  rw [if_neg hP] at hok
  by_cases hG : d1 ^^^ 73 = d0 ^^^ 71 ∧ d2 ^^^ 70 = d0 ^^^ 71 ∧ d3 ^^^ 56 = d0 ^^^ 71
  · rw [if_pos hG] at hok
    have e0 : d0 ^^^ (d0 ^^^ 71) = 71 := xorResolve rfl
    have e1 : d1 ^^^ (d0 ^^^ 71) = 73 := xorResolve hG.1
    have e2 : d2 ^^^ (d0 ^^^ 71) = 70 := xorResolve hG.2.1
    have e3 : d3 ^^^ (d0 ^^^ 71) = 56 := xorResolve hG.2.2
    rw [e0, e1, e2, e3] at hok
    simp only [FORMATS, JPG, PNG, GIF, TIFF, BMP, WXGF, List.find?, List.isPrefixOf,
      Nat.reduceBEq, beq_self_eq_true, Bool.and_self, Bool.true_and, Bool.and_true,
      Bool.false_and, Bool.and_false, List.isPrefixOf_nil_left, Except.ok.injEq,
      Prod.mk.injEq] at hok
    obtain ⟨ho, he⟩ := hok
    subst ho
    subst he
    have hmap : (71 :: 73 :: 70 :: 56 :: List.map (fun b => b ^^^ (d0 ^^^ 71)) rest) =
        List.map (fun b => b ^^^ (d0 ^^^ 71)) (d0 :: d1 :: d2 :: d3 :: rest) := by
      simp only [List.map_cons]
      rw [e0, e1, e2, e3]
    refine ⟨d0 ^^^ 71, hmap, ?_, ?_⟩
    · rw [hmap, map_xor_invol]
    · exact dat2image_plain_gif wx aesDec xorKey fmt2Key (List.map (fun b => b ^^^ (d0 ^^^ 71)) rest)
  rw [if_neg hG] at hok
  by_cases hT : d1 ^^^ 73 = d0 ^^^ 73 ∧ d2 ^^^ 42 = d0 ^^^ 73 ∧ d3 ^^^ 0 = d0 ^^^ 73
  · rw [if_pos hT] at hok
    have e0 : d0 ^^^ (d0 ^^^ 73) = 73 := xorResolve rfl
    have e1 : d1 ^^^ (d0 ^^^ 73) = 73 := xorResolve hT.1
    have e2 : d2 ^^^ (d0 ^^^ 73) = 42 := xorResolve hT.2.1
    have e3 : d3 ^^^ (d0 ^^^ 73) = 0 := xorResolve hT.2.2
    rw [e0, e1, e2, e3] at hok
    simp only [FORMATS, JPG, PNG, GIF, TIFF, BMP, WXGF, List.find?, List.isPrefixOf,
      Nat.reduceBEq, beq_self_eq_true, Bool.and_self, Bool.true_and, Bool.and_true,
      Bool.false_and, Bool.and_false, List.isPrefixOf_nil_left, Except.ok.injEq,
      Prod.mk.injEq] at hok
    obtain ⟨ho, he⟩ := hok
    subst ho
    subst he
    have hmap : (73 :: 73 :: 42 :: 0 :: List.map (fun b => b ^^^ (d0 ^^^ 73)) rest) =
        List.map (fun b => b ^^^ (d0 ^^^ 73)) (d0 :: d1 :: d2 :: d3 :: rest) := by
      simp only [List.map_cons]
      rw [e0, e1, e2, e3]
    refine ⟨d0 ^^^ 73, hmap, ?_, ?_⟩
    · rw [hmap, map_xor_invol]
    · exact dat2image_plain_tiff wx aesDec xorKey fmt2Key (List.map (fun b => b ^^^ (d0 ^^^ 73)) rest)
  rw [if_neg hT] at hok
  by_cases hB : d1 ^^^ 77 = d0 ^^^ 66
  · rw [if_pos hB] at hok
    have e0 : d0 ^^^ (d0 ^^^ 66) = 66 := xorResolve rfl
    have e1 : d1 ^^^ (d0 ^^^ 66) = 77 := xorResolve hB
    rw [e0, e1] at hok
    simp only [FORMATS, JPG, PNG, GIF, TIFF, BMP, WXGF, List.find?, List.isPrefixOf,
      Nat.reduceBEq, beq_self_eq_true, Bool.and_self, Bool.true_and, Bool.and_true,
      Bool.false_and, Bool.and_false, List.isPrefixOf_nil_left, Except.ok.injEq,
      Prod.mk.injEq] at hok
    obtain ⟨ho, he⟩ := hok
    subst ho
    subst he
    have hmap : (66 :: 77 :: (d2 ^^^ (d0 ^^^ 66)) :: (d3 ^^^ (d0 ^^^ 66)) :: List.map (fun b => b ^^^ (d0 ^^^ 66)) rest) =
        List.map (fun b => b ^^^ (d0 ^^^ 66)) (d0 :: d1 :: d2 :: d3 :: rest) := by
      simp only [List.map_cons]
      rw [e0, e1]
    refine ⟨d0 ^^^ 66, hmap, ?_, ?_⟩
    · rw [hmap, map_xor_invol]
    · exact dat2image_plain_bmp wx aesDec xorKey fmt2Key (d2 ^^^ (d0 ^^^ 66)) (d3 ^^^ (d0 ^^^ 66)) (List.map (fun b => b ^^^ (d0 ^^^ 66)) rest)
  rw [if_neg hB] at hok
  exact absurd hok (by simp)


theorem C9_legacy_involution_cex :
    dat2image wxFail (fun _ b => b) 0x37 [] [0xBD, 0x9A, 0xBD, 0xA2] =
      .ok ([0xFF, 0xD8, 0xFF, 0xE0], "jpg") ∧
    dat2image wxFail (fun _ b => b) 0x37 [] [0xFF, 0xD8, 0xFF, 0xE0] =
      .ok ([0xFF, 0xD8, 0xFF, 0xE0], "jpg") ∧
    ([0xFF, 0xD8, 0xFF, 0xE0] : List Nat) ≠ [0xBD, 0x9A, 0xBD, 0xA2] :=
  ⟨by decide, by decide, by decide⟩

theorem C9_legacy_involution_witness :
    ∃ x, ([0xFF, 0xD8, 0xFF, 0xE0] : List Nat) =
        List.map (fun b => b ^^^ x) [0xBD, 0x9A, 0xBD, 0xA2] ∧
      ([0xBD, 0x9A, 0xBD, 0xA2] : List Nat) =
        List.map (fun b => b ^^^ x) [0xFF, 0xD8, 0xFF, 0xE0] ∧
      dat2image wxFail (fun _ b => b) 0x37 [] [0xFF, 0xD8, 0xFF, 0xE0] =
        .ok ([0xFF, 0xD8, 0xFF, 0xE0], "jpg") :=
  C9_legacy_involution wxFail (fun _ b => b) 0x37 [] [0xBD, 0x9A, 0xBD, 0xA2]
    [0xFF, 0xD8, 0xFF, 0xE0] "jpg" (by decide) (by decide) (by decide)

end Chatlog
